import Mathlib

/-!
Shallow embedding of the EU Harmonized Standards Checker (Python) and proofs
about its specified behaviour.  Strings are modelled as Lean `String`s working
over their underlying `List Char`; Python floats are modelled as exact
rationals (`ℚ`); machine-level concerns (MD5 hashing, file I/O, HTTP) are
modelled as abstract environment parameters where they are irrelevant to the
properties proved.
-/

/-! ## Character classes (Python `\s`, `\w`, and the normalizer's allowed set) -/

/-- Whitespace characters as matched by Python's `str.strip` and regex `\s`
(ASCII range; the source data is ASCII). -/
def isPySpace (c : Char) : Bool :=
  c = ' ' || c = '\t' || c = '\n' || c = '\r' || c = '\x0b' || c = '\x0c'

/-- Word characters as matched by Python's regex `\w` (ASCII range). -/
def isWordChar (c : Char) : Bool :=
  c.isAlphanum || c = '_'

/-- Characters kept by `utils.normalize_standard_number`'s character filter
`[^\w\s\-.:/()\[\]]` (the complement is deleted). -/
def isAllowedChar (c : Char) : Bool :=
  isWordChar c || isPySpace c || c = '-' || c = '.' || c = ':' || c = '/' ||
    c = '(' || c = ')' || c = '[' || c = ']'

/-! ## List-level string primitives -/

/-- Python `str.strip()`: drop whitespace from both ends. -/
def pyStrip (l : List Char) : List Char :=
  (l.dropWhile isPySpace).rdropWhile isPySpace

/-- State machine for `re.sub(r'\s+', ' ', s)`: the flag records whether the
previous character was whitespace (so a run emits a single `' '`). -/
def collapseWSAux : Bool → List Char → List Char
  | _, [] => []
  | prev, c :: cs =>
    if isPySpace c then
      if prev then collapseWSAux true cs else ' ' :: collapseWSAux true cs
    else c :: collapseWSAux false cs

/-- Replace each maximal whitespace run by a single space,
as `re.sub(r'\s+', ' ', s)` does. -/
def collapseWS (l : List Char) : List Char := collapseWSAux false l

/-- Python `str.replace('  ', ' ')`: non-overlapping left-to-right replacement
of two consecutive spaces by one; the emitted space is not rescanned. -/
def replaceDoubleSpace : List Char → List Char
  | [] => []
  | [c] => [c]
  | c1 :: c2 :: rest =>
    if c1 = ' ' ∧ c2 = ' ' then ' ' :: replaceDoubleSpace rest
    else c1 :: replaceDoubleSpace (c2 :: rest)

/-- Python `str.upper()` (ASCII case mapping, which covers the source data). -/
def pyUpper (s : String) : String := String.mk (s.data.map Char.toUpper)

/-- Python `str.lower()` (ASCII case mapping). -/
def pyLower (s : String) : String := String.mk (s.data.map Char.toLower)

/-! ## `utils.py` -/

/-- Embedding of `utils.normalize_standard_number`: empty in, empty out;
otherwise strip, collapse whitespace runs to one space, then delete every
character outside `[\w\s\-.:/()\[\]]`. -/
def normalize_standard_number (standard_number : String) : String :=
  if standard_number = "" then ""
  else String.mk (List.filter isAllowedChar (collapseWS (pyStrip standard_number.data)))

/-- Character set of a string, as Python's `set(str)`. -/
def charSet (s : String) : Finset Char := s.data.toFinset

/-- Embedding of `utils.calculate_similarity`: normalize and lower-case both
inputs; equal strings score 1.0; otherwise the ratio of the intersection to
the union of the two character sets (0.0 when the union is empty). -/
def calculate_similarity (str1 str2 : String) : ℚ :=
  let s1 := pyLower (normalize_standard_number str1)
  let s2 := pyLower (normalize_standard_number str2)
  if s1 = s2 then 1
  else
    let common_chars := charSet s1 ∩ charSet s2
    let total_chars := charSet s1 ∪ charSet s2
    if total_chars = ∅ then 0
    else (common_chars.card : ℚ) / (total_chars.card : ℚ)

/-- Embedding of `utils.create_cache_key`: the code MD5-hexes the colon-joined
string `prefix:arg1:...`; MD5 is an external hash used only as an (assumed
injective) key derivation, so the model keeps the joined string itself. -/
def create_cache_key (pre : String) (args : List String) : String :=
  pre ++ ":" ++ String.intercalate ":" args

/-! ## `data_models.py` -/

/-- Embedding of the `Standard` dataclass. -/
structure Standard where
  number : String
  version : String
  directive : String
  title : String
  status : String
  publication_date : String
  amendment_date : String
  withdrawal_date : String := ""
  superseded_by : String := ""
  oj_reference : String := ""
deriving DecidableEq, Repr

/-- Embedding of the static `Standard.normalize_standard_number` used by the
dataclasses' `__post_init__`: `number.strip().replace('  ', ' ')`. -/
def Standard.normalize_number (number : String) : String :=
  String.mk (replaceDoubleSpace (pyStrip number.data))

/-- Construction of a `Standard` through `__post_init__` (which normalizes
`number`), with the three trailing fields left at their defaults as in
`sample_data.py`. -/
def mkStandard (number version directive title status publication_date
    amendment_date : String) : Standard :=
  ⟨Standard.normalize_number number, version, directive, title, status,
    publication_date, amendment_date, "", "", ""⟩

/-- Embedding of the `TestStandard` dataclass. -/
structure TestStandard where
  standard_number : String
  version : String
  category : String
  description : String
  source : String
deriving DecidableEq, Repr

/-- Construction of a `TestStandard` through `__post_init__`, which applies
`Standard.normalize_standard_number` to `standard_number`. -/
def mkTestStandard (standard_number version category description source : String) :
    TestStandard :=
  ⟨Standard.normalize_number standard_number, version, category, description, source⟩

/-- Embedding of the `ProcessingResult` dataclass (payload type made explicit). -/
structure ProcessingResult (α : Type) where
  success : Bool
  data : Option α := none
  error_message : Option String := none
  warnings : List String := []
deriving DecidableEq, Repr

/-! ## `oj_checker.py`: version comparison and deduplication -/

/-- Numeric value of a digit string (used for Python `int()` on digit runs). -/
def digitsToNat (l : List Char) : Nat :=
  l.foldl (fun a c => a * 10 + (c.toNat - 48)) 0

/-- Python `int(token)` on a whitespace-free token: optional sign followed by
digits, `none` models a `ValueError`. -/
def pyInt? (l : List Char) : Option Int :=
  match l with
  | '-' :: ds =>
    if ds.isEmpty then none
    else if ds.all Char.isDigit then some (-(digitsToNat ds : Int)) else none
  | '+' :: ds =>
    if ds.isEmpty then none
    else if ds.all Char.isDigit then some ((digitsToNat ds : Int)) else none
  | ds =>
    if ds.isEmpty then none
    else if ds.all Char.isDigit then some ((digitsToNat ds : Int)) else none

/-- Attempt of the regex `\d+\.\d+\.\d+` anchored at the current position
(group values returned).  Greedy digit runs need no backtracking here because
a digit never matches `.`. -/
def tripleAt (l : List Char) : Option (Nat × Nat × Nat) :=
  let d1 := l.takeWhile Char.isDigit
  match d1, l.dropWhile Char.isDigit with
  | _ :: _, '.' :: r2 =>
    let d2 := r2.takeWhile Char.isDigit
    match d2, r2.dropWhile Char.isDigit with
    | _ :: _, '.' :: r3 =>
      let d3 := r3.takeWhile Char.isDigit
      match d3 with
      | _ :: _ => some (digitsToNat d1, digitsToNat d2, digitsToNat d3)
      | [] => none
    | _, _ => none
  | _, _ => none

/-- Leftmost match of `re.search(r'V?(\d+)\.(\d+)\.(\d+)', s)`: at each
position the optional `V` is consumed when present (a digit run can never
start with `V`, so no backtracking case is lost). -/
def searchVersionTriple : List Char → Option (Nat × Nat × Nat)
  | [] => none
  | c :: cs =>
    match (if c = 'V' then tripleAt cs else tripleAt (c :: cs)) with
    | some t => some t
    | none => searchVersionTriple cs

/-- Ordering on lists given an ordering on elements (Python sequence
comparison: first difference decides, a strict prefix is smaller). -/
def listCmp (cmp : α → α → Ordering) : List α → List α → Ordering
  | [], [] => .eq
  | [], _ :: _ => .lt
  | _ :: _, [] => .gt
  | a :: as, b :: bs =>
    match cmp a b with
    | .eq => listCmp cmp as bs
    | o => o

/-- Python string comparison (by Unicode code point). -/
def strCmp (a b : String) : Ordering :=
  listCmp (fun c d => compare c.toNat d.toNat) a.data b.data

/-- Embedding of `OJChecker._compare_versions`: compare the first
`V?(\d+)\.(\d+)\.(\d+)` matches component-wise when both versions contain one;
otherwise fall back to plain string comparison.  (The `except` branch of the
source is unreachable: no conversion can fail once the regex matched.) -/
def compare_versions (version1 version2 : String) : Int :=
  match searchVersionTriple version1.data, searchVersionTriple version2.data with
  | some (a1, b1, c1), some (a2, b2, c2) =>
    if a1 > a2 then 1 else if a1 < a2 then -1
    else if b1 > b2 then 1 else if b1 < b2 then -1
    else if c1 > c2 then 1 else if c1 < c2 then -1
    else 0
  | _, _ =>
    match strCmp version1 version2 with
    | .gt => 1
    | .lt => -1
    | .eq => 0

/-- Replacement of the value stored under `k` (Python dict value update keeps
the key's insertion position). -/
def updateAssoc (m : List (String × Standard)) (k : String) (v : Standard) :
    List (String × Standard) :=
  m.map (fun p => if p.1 = k then (k, v) else p)

/-- One iteration of `OJChecker._deduplicate_standards`' loop body over the
`standard_map` dict. -/
def dedupStep (standard_map : List (String × Standard)) (standard : Standard) :
    List (String × Standard) :=
  match standard_map.lookup standard.number with
  | some existing =>
    if standard.version ≠ "" ∧ existing.version = "" then
      updateAssoc standard_map standard.number standard
    else if standard.version = "" ∧ existing.version ≠ "" then
      standard_map
    else if standard.version ≠ "" ∧ existing.version ≠ "" then
      if compare_versions standard.version existing.version > 0 then
        updateAssoc standard_map standard.number standard
      else standard_map
    else standard_map
  | none => standard_map ++ [(standard.number, standard)]

/-- Embedding of `OJChecker._deduplicate_standards`: fold the list into an
insertion-ordered map keyed by `standard.number` and return its values. -/
def deduplicate_standards (standards : List Standard) : List Standard :=
  (standards.foldl dedupStep []).map Prod.snd

/-! ## `oj_checker.py`: composite sort key and sorting -/

/-- Python value appearing inside a sort-key tuple: a string, an integer or a
tuple of integers. -/
inductive PyV where
  | s (v : String)
  | i (v : Int)
  | t (v : List Int)
deriving DecidableEq, Repr

/-- Comparison of two tuple components; `none` models Python's `TypeError`
for mismatched operand types. -/
def pyVCompare : PyV → PyV → Option Ordering
  | .s a, .s b => some (strCmp a b)
  | .i a, .i b => some (compare a b)
  | .t a, .t b => some (listCmp compare a b)
  | _, _ => none

/-- Python tuple comparison over key tuples (element-wise, short tuple that is
a prefix compares smaller); `none` propagates a `TypeError`. -/
def pyKeyCompare : List PyV → List PyV → Option Ordering
  | [], [] => some .eq
  | [], _ :: _ => some .lt
  | _ :: _, [] => some .gt
  | a :: as, b :: bs =>
    match pyVCompare a b with
    | none => none
    | some .eq => pyKeyCompare as bs
    | some o => some o

/-- Accumulator pass of `pySplitWS`: `acc` is the current word, reversed. -/
def pySplitWSAux : List Char → List Char → List (List Char)
  | acc, [] => if acc = [] then [] else [acc.reverse]
  | acc, c :: cs =>
    if isPySpace c then
      if acc = [] then pySplitWSAux [] cs else acc.reverse :: pySplitWSAux [] cs
    else pySplitWSAux (c :: acc) cs

/-- Python `str.split()` (split on whitespace runs, dropping empty pieces). -/
def pySplitWS (l : List Char) : List (List Char) := pySplitWSAux [] l

/-- Python `s.split('-', 1)` when `'-' in s`: the part before the first dash
and the part after it. -/
def splitFirstDash : List Char → Option (List Char × List Char)
  | [] => none
  | c :: cs =>
    if c = '-' then some ([], cs)
    else (splitFirstDash cs).map (fun p => (c :: p.1, p.2))

/-- Python `s.split('-')`: split on every dash, keeping empty pieces. -/
def splitAllDash : List Char → List (List Char)
  | [] => [[]]
  | c :: cs =>
    if c = '-' then [] :: splitAllDash cs
    else
      match splitAllDash cs with
      | w :: ws => (c :: w) :: ws
      | [] => [[c]]

/-- Accumulator pass of `extractDigitGroups`: `acc` is the current digit run,
reversed. -/
def extractDigitGroupsAux : List Char → List Char → List (List Char)
  | acc, [] => if acc = [] then [] else [acc.reverse]
  | acc, c :: cs =>
    if c.isDigit then extractDigitGroupsAux (c :: acc) cs
    else if acc = [] then extractDigitGroupsAux [] cs
    else acc.reverse :: extractDigitGroupsAux [] cs

/-- Maximal digit runs of a string, as `re.findall(r'\d+', s)`. -/
def extractDigitGroups (l : List Char) : List (List Char) :=
  extractDigitGroupsAux [] l

/-- The `number.startswith('EN ')` branch of `extract_sort_key`; `none` models
the `ValueError`/too-few-parts cases that fall through to the default key. -/
def enBranchKey (numberL : List Char) : Option (List PyV) :=
  match pySplitWS numberL with
  | _ :: p1 :: p2 :: _ =>
    match pyInt? p1 with
    | none => none
    | some main_num =>
      if p2.contains '-' then
        match splitFirstDash p2 with
        | some (second_num_str, part_str) =>
          match pyInt? second_num_str with
          | none => none
          | some second_num =>
            let part_nums := (splitAllDash part_str).map
              (fun pt => match pyInt? pt with | some n => n | none => (999999 : Int))
            some [.s "EN", .i main_num, .i second_num, .t part_nums]
        | none => none
      else
        match pyInt? p2 with
        | none => none
        | some second_num => some [.s "EN", .i main_num, .i second_num, .t [0]]
  | _ => none

/-- Embedding of `extract_sort_key` inside `OJChecker._sort_standards_by_number`.
In the `ETSI EN` branch the source recurses once on a temporary `Standard`
whose number is `"EN " + number[5:]`; that temporary number always starts with
`"EN "`, so only the `EN` branch or the shared fallback can apply to it and
the recursion is unrolled here. -/
def extract_sort_key (standard : Standard) : List PyV :=
  let numberL := pyStrip (standard.number.data.map Char.toUpper)
  let number := String.mk numberL
  if List.isPrefixOf ['E', 'N', ' '] numberL then
    match enBranchKey numberL with
    | some k => k
    | none => [.s standard.number, .i 999999]
  else if List.isPrefixOf ['E', 'T', 'S', 'I', ' ', 'E', 'N', ' '] numberL then
    let en_part := numberL.drop 5
    let tempNumber := Standard.normalize_number (String.mk (['E', 'N', ' '] ++ en_part))
    let innerL := pyStrip (tempNumber.data.map Char.toUpper)
    let key :=
      if List.isPrefixOf ['E', 'N', ' '] innerL then
        match enBranchKey innerL with
        | some k => k
        | none => [.s tempNumber, .i 999999]
      else [.s tempNumber, .i 999999]
    .s "ETSI" :: key.tail
  else
    let digitGroups := extractDigitGroups numberL
    if digitGroups.isEmpty then [.s number, .i 999999]
    else
      match pySplitWS numberL with
      | tok :: _ => .s (String.mk tok) :: digitGroups.map (fun g => .i (digitsToNat g))
      | [] => [.s standard.number, .i 999999]

/-- Stable insertion of `a` after every element `b` with `le b a` (ties keep
the earlier element first, as Python's stable sort does). -/
def insertSortedBy (le : α → α → Bool) (a : α) : List α → List α
  | [] => [a]
  | b :: bs => if le b a then b :: insertSortedBy le a bs else a :: b :: bs

/-- Stable sort by a boolean `≤`; for a total preorder this coincides with
Python's `sorted` (stable sorts agree on every total preorder). -/
def pySortedBy (le : α → α → Bool) (l : List α) : List α :=
  l.foldl (fun acc x => insertSortedBy le x acc) []

/-- Comparability of every key pair.  Python raises `TypeError` only for pairs
it actually compares; when all pairs are comparable (the only case the claims
touch) the two semantics coincide. -/
def allPairsComparable (standards : List Standard) : Bool :=
  standards.all fun a => standards.all fun b =>
    (pyKeyCompare (extract_sort_key a) (extract_sort_key b)).isSome

/-- Boolean `≤` on comparable sort keys. -/
def pyKeyLeB (a b : List PyV) : Bool :=
  match pyKeyCompare a b with
  | some .gt => false
  | _ => true

/-- Embedding of `OJChecker._sort_standards_by_number`: sort by the composite
key; when some key pair is incomparable (Python `TypeError` inside `sorted`)
the `except` branch sorts by the plain number string instead. -/
def sort_standards_by_number (standards : List Standard) : List Standard :=
  if allPairsComparable standards then
    pySortedBy (fun a b => pyKeyLeB (extract_sort_key a) (extract_sort_key b)) standards
  else
    pySortedBy (fun a b => !(strCmp a.number b.number == .gt)) standards

/-! ## `sample_data.py` -/

/-- The bundled RE-directive sample standards (`SAMPLE_RE_STANDARDS`). -/
def SAMPLE_RE_STANDARDS : List Standard :=
  [mkStandard "EN 301 489-17" "V3.3.1" "RE"
    "ElectroMagnetic Compatibility (EMC) standard for radio equipment and services; Part 17: Specific conditions for Broadband Data Transmission Systems"
    "Active" "2023-03-15" "2025-01-28",
   mkStandard "EN 301 489-1" "V2.2.3" "RE"
    "ElectroMagnetic Compatibility (EMC) standard for radio equipment and services; Part 1: Common technical requirements"
    "Active" "2019-03-12" "2023-11-27",
   mkStandard "EN 301 489-3" "V2.1.1" "RE"
    "ElectroMagnetic Compatibility (EMC) standard for radio equipment and services; Part 3: Specific conditions for Short-Range Devices (SRD)"
    "Active" "2017-05-16" "2023-10-03",
   mkStandard "EN 300 328" "V2.2.2" "RE"
    "Wideband transmission systems; Data transmission equipment operating in the 2,4 GHz ISM band"
    "Active" "2016-11-30" "2025-05-14",
   mkStandard "EN 301 893" "V2.1.1" "RE"
    "5 GHz RLAN; Harmonised Standard for access to radio spectrum"
    "Active" "2017-05-12" "2023-11-27",
   mkStandard "EN 302 065-1" "V2.1.1" "RE"
    "Short Range Devices (SRD) using Ultra Wide Band (UWB) technology; Part 1: Technical requirements and test methods"
    "Active" "2016-07-20" "2025-01-28",
   mkStandard "EN 300 220-1" "V3.1.1" "RE"
    "Short Range Devices (SRD); Radio equipment to be used in the 25 MHz to 1 000 MHz frequency range; Part 1: Technical characteristics and test methods"
    "Active" "2012-01-04" "2023-10-03",
   mkStandard "EN 303 413" "V1.1.1" "RE"
    "Satellite Earth Stations and Systems (SES); Global Navigation Satellite System (GNSS) receivers"
    "Active" "2017-05-12" "2025-05-14"]

/-- The bundled EMC-directive sample standards (`SAMPLE_EMC_STANDARDS`). -/
def SAMPLE_EMC_STANDARDS : List Standard :=
  [mkStandard "EN 55032" "V2010+A11:2020" "EMC"
    "Electromagnetic compatibility of multimedia equipment - Emission requirements"
    "Active" "2012-12-01" "2024-04-19",
   mkStandard "EN 61000-4-2" "V2008+A1:2013" "EMC"
    "Electromagnetic compatibility (EMC) - Part 4-2: Testing and measurement techniques - Electrostatic discharge immunity test"
    "Active" "2008-12-01" "2024-10-30",
   mkStandard "EN 61000-4-3" "V2006+A1:2007+A2:2010" "EMC"
    "Electromagnetic compatibility (EMC) - Part 4-3: Testing and measurement techniques - Radiated, radio-frequency, electromagnetic field immunity test"
    "Active" "2006-02-01" "2024-04-19"]

/-- The bundled LVD-directive sample standards (`SAMPLE_LVD_STANDARDS`). -/
def SAMPLE_LVD_STANDARDS : List Standard :=
  [mkStandard "EN 62368-1" "V2014+A11:2017" "LVD"
    "Audio/video, information and communication technology equipment - Part 1: Safety requirements"
    "Active" "2014-02-26" "2024-10-30",
   mkStandard "EN 60950-1" "V2006+A11:2009+A1:2010+A12:2011+A2:2013" "LVD"
    "Information technology equipment - Safety - Part 1: General requirements"
    "Withdrawn" "2006-01-01" "2020-12-20"]

/-- Embedding of `sample_data.get_sample_standards_for_directive`:
a case-insensitive lookup in the three sample lists, empty list if unknown. -/
def get_sample_standards_for_directive (directive : String) : List Standard :=
  let key := pyUpper directive
  if key = "RE" then SAMPLE_RE_STANDARDS
  else if key = "EMC" then SAMPLE_EMC_STANDARDS
  else if key = "LVD" then SAMPLE_LVD_STANDARDS
  else []

/-! ## `oj_checker.py`: the `fetch_standards` pipeline -/

/-- Environment of one `OJChecker.fetch_standards` call: the registry's
directive codes, the two live sources (as functions from directive to the
standards each source managed to produce — an unreachable or matchless source
produces `[]`, exactly what `_fetch_from_eur_lex`/`_fetch_from_ec_webpage`
return on failure), and the disk cache. -/
structure OJEnv where
  directive_urls : List String
  eur_lex_fetch : String → List Standard
  ec_fetch : String → List Standard
  cache : String → Option (List Standard)

/-- Modelled from the spec: the directive registry file `oj_config.json` is
referenced by `config.py` but is not part of the inspected sources; per the
spec its seeded directive codes are "RE", "EMC" and "LVD". -/
def specDirectiveCodes : List String := ["RE", "EMC", "LVD"]

/-- Embedding of `OJChecker.fetch_standards`.  The returned pair is the
`ProcessingResult` together with the list of cache writes performed.
A cached empty list is falsy in Python, hence only a non-empty cached value
is a hit. -/
def fetch_standards (env : OJEnv) (directive : String) :
    ProcessingResult (List Standard) × List (String × List Standard) :=
  if !(env.directive_urls.contains directive) then
    (⟨false, none, some ("Unknown directive: " ++ directive), []⟩, [])
  else
    let cache_key := create_cache_key "oj_standards" [directive]
    match env.cache cache_key with
    | some (x :: xs) => (⟨true, some (x :: xs), none, []⟩, [])
    | _ =>
      let standards := env.eur_lex_fetch directive ++ env.ec_fetch directive
      if standards.isEmpty then
        let sample_standards := get_sample_standards_for_directive directive
        if sample_standards.isEmpty then
          (⟨false, none, some ("No standards found for " ++ directive), []⟩, [])
        else
          let sorted_sample_standards := sort_standards_by_number sample_standards
          (⟨true, some sorted_sample_standards, none, []⟩,
            [(cache_key, sorted_sample_standards)])
      else
        let sorted_standards := sort_standards_by_number (deduplicate_standards standards)
        (⟨true, some sorted_standards, none, []⟩, [(cache_key, sorted_standards)])

/-! ## `comparator.py` -/

/-- The prefix regex `r'^ETSI\\s+EN\\s+'` of
`StandardComparator.normalize_standard_number`.  Inside a raw string `\\`
denotes an escaped backslash, so the pattern matches a literal backslash
followed by one or more letters `s` — not whitespace.  `none` means no match
at the start of the string. -/
def matchEtsiEnBroken (l : List Char) : Option (List Char) :=
  match l with
  | 'E' :: 'T' :: 'S' :: 'I' :: '\\' :: rest =>
    match rest with
    | 's' :: _ =>
      match rest.dropWhile (· = 's') with
      | 'E' :: 'N' :: '\\' :: rest2 =>
        match rest2 with
        | 's' :: _ => some (rest2.dropWhile (· = 's'))
        | _ => none
      | _ => none
    | _ => none
  | _ => none

/-- Application of `re.sub(r'^ETSI\\s+EN\\s+', 'EN ', s)` as written. -/
def subPrefixEtsiEnBroken (l : List Char) : List Char :=
  match matchEtsiEnBroken l with
  | some rest => 'E' :: 'N' :: ' ' :: rest
  | none => l

/-- The prefix regex `r'^ETSI\\s+'` (same escaped-backslash reading). -/
def matchEtsiBroken (l : List Char) : Option (List Char) :=
  match l with
  | 'E' :: 'T' :: 'S' :: 'I' :: '\\' :: rest =>
    match rest with
    | 's' :: _ => some (rest.dropWhile (· = 's'))
    | _ => none
  | _ => none

/-- Application of `re.sub(r'^ETSI\\s+', '', s)` as written. -/
def subPrefixEtsiBroken (l : List Char) : List Char :=
  match matchEtsiBroken l with
  | some rest => rest
  | none => l

/-- Scanner for the global `re.sub(r'\\s+', ' ', s)` as written: each literal
backslash followed by a run of `s` letters becomes one space.  The flag is
true while swallowing the `s` run of a match already emitted as `' '`. -/
def subBSAux : Bool → List Char → List Char
  | true, 's' :: cs => subBSAux true cs
  | _, '\\' :: cs =>
    if cs.head? = some 's' then ' ' :: subBSAux true cs
    else '\\' :: subBSAux false cs
  | _, c :: cs => c :: subBSAux false cs
  | _, [] => []

/-- Application of `re.sub(r'\\s+', ' ', s)` as its pattern reads. -/
def subBackslashSRun (l : List Char) : List Char := subBSAux false l

/-- Scanner state for `re.sub(r'\\s*-\\s*', '-', s)` as written: `normal`
outside any candidate match, `pend n` after a literal backslash followed by
`n` letters `s` (match not yet resolved), `trail` swallowing the trailing `s`
run of a completed match. -/
inductive DashSt where
  | normal
  | pend (n : Nat)
  | trail

/-- One-character-per-step scanner for `re.sub(r'\\s*-\\s*', '-', s)` as its
pattern reads (backslash, optional `s` run, dash, backslash, optional `s`
run).  A failed candidate re-emits the pending characters; a new backslash
inside them starts the next candidate. -/
def subDashAux : DashSt → List Char → List Char
  | .normal, [] => []
  | .normal, '\\' :: cs => subDashAux (.pend 0) cs
  | .normal, c :: cs => c :: subDashAux .normal cs
  | .pend n, 's' :: cs => subDashAux (.pend (n + 1)) cs
  | .pend _, '-' :: '\\' :: cs => '-' :: subDashAux .trail cs
  | .pend n, '-' :: cs => '\\' :: (List.replicate n 's' ++ '-' :: subDashAux .normal cs)
  | .pend n, '\\' :: cs => '\\' :: (List.replicate n 's' ++ subDashAux (.pend 0) cs)
  | .pend n, c :: cs => '\\' :: (List.replicate n 's' ++ c :: subDashAux .normal cs)
  | .pend n, [] => '\\' :: List.replicate n 's'
  | .trail, 's' :: cs => subDashAux .trail cs
  | .trail, '\\' :: cs => subDashAux (.pend 0) cs
  | .trail, c :: cs => c :: subDashAux .normal cs
  | .trail, [] => []

/-- Application of `re.sub(r'\\s*-\\s*', '-', s)` as its pattern reads. -/
def subDashBroken (l : List Char) : List Char := subDashAux .normal l

/-- Embedding of `StandardComparator.normalize_standard_number` (renamed here
to avoid clashing with the shared `utils` normalizer it calls): the shared
normalizer, uppercase, then the four substitutions exactly as their patterns
read (with their escaped backslashes), then `strip()`. -/
def comparator_normalize_standard_number (standard : String) : String :=
  if standard = "" then ""
  else
    let n1 := pyUpper (normalize_standard_number standard)
    let n2 := String.mk (subPrefixEtsiEnBroken n1.data)
    let n3 := String.mk (subPrefixEtsiBroken n2.data)
    let n4 := String.mk (subBackslashSRun n3.data)
    let n5 := String.mk (subDashBroken n4.data)
    String.mk (pyStrip n5.data)

/-- Embedding of `StandardComparator._calculate_match_score`. -/
def calculate_match_score (oj_std : Standard) (iso_std : TestStandard) : ℚ :=
  let oj_number := comparator_normalize_standard_number oj_std.number
  let iso_number := comparator_normalize_standard_number iso_std.standard_number
  if oj_number = iso_number then 1
  else
    let similarity_score := calculate_similarity oj_number iso_number
    let version_bonus : ℚ :=
      if oj_std.version = "" then 0
      else if iso_std.version = "" then 0
      else if oj_std.version = iso_std.version then 1 / 10 else 0
    let title_bonus : ℚ :=
      if oj_std.title = "" then 0
      else if iso_std.description = "" then 0
      else calculate_similarity oj_std.title iso_std.description * (2 / 10)
    min 1 (similarity_score + version_bonus + title_bonus)

/-- The inner loop of `StandardComparator.compare_standards`: best-scoring ISO
standard with score strictly improving on the running best and at least the
threshold. -/
def best_match_for (oj_std : Standard) (similarity_threshold : ℚ)
    (iso_standards : List TestStandard) : Option TestStandard :=
  (iso_standards.foldl
    (fun (acc : Option TestStandard × ℚ) iso_std =>
      let score := calculate_match_score oj_std iso_std
      if score > acc.2 ∧ score ≥ similarity_threshold then (some iso_std, score) else acc)
    (none, 0)).1

/-- Embedding of the `ComparisonResult` dataclass. -/
structure ComparisonResult where
  matched_standards : List (Standard × TestStandard)
  oj_only_standards : List Standard
  iso_only_standards : List TestStandard
  coverage_percentage : ℚ
  comparison_date : String
deriving DecidableEq, Repr

/-- Python `list.remove` guarded by a membership test (removing the first
structurally equal element; no-op when absent). -/
def removeFirst [DecidableEq α] (a : α) : List α → List α
  | [] => []
  | b :: bs => if b = a then bs else b :: removeFirst a bs

/-- Embedding of `StandardComparator._calculate_coverage`. -/
def calculate_coverage (matched_count total_count : Nat) : ℚ :=
  if total_count = 0 then 0
  else ((matched_count : ℚ) / (total_count : ℚ)) * 100

/-- One iteration of `StandardComparator.compare_standards`' matching loop:
a claimed pair is appended and the first structural occurrence of each side
is removed from the respective unmatched copies. -/
def compareStep (iso_standards : List TestStandard) (similarity_threshold : ℚ)
    (acc : List (Standard × TestStandard) × List Standard × List TestStandard)
    (oj_std : Standard) :
    List (Standard × TestStandard) × List Standard × List TestStandard :=
  match best_match_for oj_std similarity_threshold iso_standards with
  | some best => (acc.1 ++ [(oj_std, best)], removeFirst oj_std acc.2.1,
      removeFirst best acc.2.2)
  | none => acc

/-- Embedding of `StandardComparator.compare_standards`: every OJ standard is
scored against the full ISO list; a claimed pair removes the first structural
occurrence of each side from the respective unmatched copies.
The comparison date carries no logic and is modelled as `""`. -/
def compare_standards (oj_standards : List Standard)
    (iso_standards : List TestStandard) (similarity_threshold : ℚ) : ComparisonResult :=
  let r := oj_standards.foldl (compareStep iso_standards similarity_threshold)
    ([], oj_standards, iso_standards)
  ⟨r.1, r.2.1, r.2.2, calculate_coverage r.1.length oj_standards.length, ""⟩

/-! ## `etsi_searcher.py`: `validate_standard_format` -/

/-- Regex atom `\d+`: one or more digits (greedy; the following atom in every
use is `\s`, `-` or end of string, none of which is a digit, so the greedy
deterministic parse equals the regex). -/
def eatDigits : List Char → Option (List Char)
  | c :: cs => if c.isDigit then some (cs.dropWhile Char.isDigit) else none
  | [] => none

/-- Regex atom `\s+`: one or more whitespace characters (greedy; always
followed by `\d` here). -/
def eatSpaces : List Char → Option (List Char)
  | c :: cs => if isPySpace c then some (cs.dropWhile isPySpace) else none
  | [] => none

/-- State of the `(?:-\d+)*$` recognizer: at a chunk boundary, right after a
dash (at least one digit required), or inside a digit run. -/
inductive ChainSt where
  | bound
  | digit1
  | run

/-- Recognizer for the regex tail `(?:-\d+)*$`. -/
def mdcAux : ChainSt → List Char → Bool
  | .bound, [] => true
  | .bound, '-' :: cs => mdcAux .digit1 cs
  | .bound, _ => false
  | .digit1, c :: cs => if c.isDigit then mdcAux .run cs else false
  | .digit1, [] => false
  | .run, [] => true
  | .run, '-' :: cs => mdcAux .digit1 cs
  | .run, c :: cs => if c.isDigit then mdcAux .run cs else false

/-- Regex tail `(?:-\d+)*$`. -/
def matchDashChainEnd (l : List Char) : Bool := mdcAux .bound l

/-- Regex tail `\s+\d+(?:-\d+)*$` (after the first digit group). -/
def matchSecondGroupEnd (l : List Char) : Bool :=
  match eatSpaces l with
  | none => false
  | some r1 =>
    match eatDigits r1 with
    | none => false
    | some r2 => matchDashChainEnd r2

/-- The pattern `^\d+\s+\d+(?:-\d+)*$`. -/
def matchBareNumber (l : List Char) : Bool :=
  match eatDigits l with
  | none => false
  | some r => matchSecondGroupEnd r

/-- The pattern `^EN\s+\d+\s+\d+(?:-\d+)*$`. -/
def matchEnNumber (l : List Char) : Bool :=
  match l with
  | 'E' :: 'N' :: rest =>
    match eatSpaces rest with
    | some r1 =>
      match eatDigits r1 with
      | some r2 => matchSecondGroupEnd r2
      | none => false
    | none => false
  | _ => false

/-- The pattern `^ETSI\s+EN\s+\d+\s+\d+(?:-\d+)*$` (after `ETSI` and
whitespace, the remainder is exactly the `EN` pattern). -/
def matchEtsiEnNumber (l : List Char) : Bool :=
  match l with
  | 'E' :: 'T' :: 'S' :: 'I' :: rest =>
    match eatSpaces rest with
    | some r1 => matchEnNumber r1
    | none => false
  | _ => false

/-- Embedding of `ETSIPortalSearcher.validate_standard_format`: normalize and
test the three anchored patterns. -/
def validate_standard_format (standard_number : String) : Bool :=
  let normalized := normalize_standard_number standard_number
  matchBareNumber normalized.data || matchEnNumber normalized.data ||
    matchEtsiEnNumber normalized.data

/-! ## `iso17025_extractor.py` -/

/-- Embedding of the `CertificateInfo` dataclass. -/
structure CertificateInfo where
  certificate_number : String
  valid_until : String
  organization : String
  accreditation_body : String
  revision_date : String
  contact_info : Option (List (String × String)) := none
deriving DecidableEq, Repr

/-- Embedding of the `AccreditationScope` dataclass. -/
structure AccreditationScope where
  certificate_info : CertificateInfo
  test_standards : List TestStandard
  extraction_date : String
  pdf_source : String
deriving DecidableEq, Repr

/-- Environment of an `ISO17025ScopeExtractor.extract_from_pdf` call.
`fileContent` maps a path to the file's bytes (`none`: unreadable);
`md5Hex` is the abstract content hash used by `get_file_hash`;
`textOf` is the combined pdfplumber/PyPDF2 text extraction as a function of
the bytes; `ocr` is the OCR pipeline on a path (`Except.error` models a
raised exception).  `parseScope` and `parseCert` stand for
`_parse_scope_text` and `_extract_certificate_info`: both are pure functions
of the extracted text, and the caching behaviour under scrutiny is
independent of their internals, so they are kept as parameters of the
environment. -/
structure ISO17025Env where
  fileContent : String → Option String
  md5Hex : String → String
  textOf : String → String
  ocr : String → Except String String
  parseScope : String → List TestStandard
  parseCert : String → CertificateInfo
  now : String

/-- Embedding of `utils.get_file_hash`: hash of the file bytes, empty string
when the file cannot be read. -/
def get_file_hash (env : ISO17025Env) (file_path : String) : String :=
  match env.fileContent file_path with
  | some bytes => env.md5Hex bytes
  | none => ""

/-- Embedding of `ISO17025ScopeExtractor.extract_from_pdf`.  The returned pair
is the `ProcessingResult` together with the cache as it stands after the call.
Note that the source computes `cache_key` and reads the cache but contains no
`save_to_cache` call, so no branch modifies the cache. -/
def extract_from_pdf (env : ISO17025Env) (cache : List (String × AccreditationScope))
    (pdf_path : String) : ProcessingResult AccreditationScope × List (String × AccreditationScope) :=
  let file_hash := get_file_hash env pdf_path
  let cache_key := create_cache_key "iso17025_scope" [file_hash]
  match cache.lookup cache_key with
  | some cached_data => (⟨true, some cached_data, none, []⟩, cache)
  | none =>
    let text :=
      match env.fileContent pdf_path with
      | some bytes => env.textOf bytes
      | none => ""
    let textResult : Except String String :=
      if String.mk (pyStrip text.data) = "" then env.ocr pdf_path
      else Except.ok text
    match textResult with
    | Except.error e => (⟨false, none, some ("OCR failed: " ++ e), []⟩, cache)
    | Except.ok t =>
      let scope : AccreditationScope :=
        ⟨env.parseCert t, env.parseScope t, env.now, pdf_path⟩
      (⟨true, some scope, none, []⟩, cache)

/-! ## Predicates used in theorem statements -/

/-- Presence of two consecutive space characters. -/
def hasDoubleSpaceL : List Char → Bool
  | c1 :: c2 :: rest => (c1 = ' ' && c2 = ' ') || hasDoubleSpaceL (c2 :: rest)
  | _ => false

/-- Presence of two consecutive space characters in a string. -/
def hasDoubleSpace (s : String) : Bool := hasDoubleSpaceL s.data

/-- Absence of any run of three or more consecutive spaces. -/
def noTripleSpace : List Char → Bool
  | c1 :: c2 :: c3 :: rest =>
    !(c1 = ' ' && c2 = ' ' && c3 = ' ') && noTripleSpace (c2 :: c3 :: rest)
  | _ => true

/-- Canonical whitespace shape: every whitespace character is a plain `' '`
and is not followed by another whitespace character. -/
def canonWS : List Char → Bool
  | [] => true
  | [c] => !isPySpace c || c = ' '
  | c :: d :: rest =>
    (if isPySpace c then c = ' ' && !isPySpace d else true) && canonWS (d :: rest)

/-! # Theorems -/

/-! ## Shared list lemmas -/

theorem noTripleSpace_tail {c : Char} {l : List Char}
    (h : noTripleSpace (c :: l) = true) : noTripleSpace l = true := by
  match l with
  | [] => rfl
  | [a] => rfl
  | a :: b :: rest =>
    simp only [noTripleSpace, Bool.and_eq_true] at h
    exact h.2

theorem noTripleSpace_of_suffix {l₁ l₂ : List Char} (h : l₂ <:+ l₁)
    (hn : noTripleSpace l₁ = true) : noTripleSpace l₂ = true := by
  obtain ⟨t, rfl⟩ := h
  induction t with
  | nil => exact hn
  | cons c t ih => exact ih (noTripleSpace_tail hn)

theorem noTripleSpace_dropLast {l : List Char}
    (hn : noTripleSpace l = true) : noTripleSpace l.dropLast = true := by
  induction l with
  | nil => exact hn
  | cons c rest ih =>
    match rest, hn with
    | [], _ => rfl
    | [a], _ => rfl
    | a :: b :: rest', hn =>
      simp only [noTripleSpace, Bool.and_eq_true] at hn
      have htail := ih hn.2
      match rest' with
      | [] => simpa [List.dropLast, noTripleSpace] using hn.1
      | r :: rs =>
        simp only [List.dropLast, noTripleSpace, Bool.and_eq_true] at htail ⊢
        exact ⟨hn.1, htail⟩

theorem noTripleSpace_rdropWhile {p : Char → Bool} {l : List Char}
    (hn : noTripleSpace l = true) : noTripleSpace (l.rdropWhile p) = true := by
  induction l using List.reverseRecOn with
  | nil => simpa [List.rdropWhile] using hn
  | append_singleton xs x ih =>
    by_cases hp : p x = true
    · rw [List.rdropWhile_concat_pos _ _ _ hp]
      refine ih ?_
      have : xs = (xs ++ [x]).dropLast := by simp
      rw [this]
      exact noTripleSpace_dropLast hn
    · rw [List.rdropWhile_concat_neg _ _ _ (by simpa using hp)]
      exact hn

theorem noTripleSpace_pyStrip {l : List Char} (hn : noTripleSpace l = true) :
    noTripleSpace (pyStrip l) = true :=
  noTripleSpace_rdropWhile
    (noTripleSpace_of_suffix (List.dropWhile_suffix isPySpace) hn)

theorem replaceDoubleSpace_head {l : List Char} (h : l.head? ≠ some ' ') :
    (replaceDoubleSpace l).head? = l.head? := by
  match l with
  | [] => rfl
  | [c] => rfl
  | c1 :: c2 :: rest =>
    have hc1 : ¬ (c1 = ' ' ∧ c2 = ' ') := by
      rintro ⟨h1, h2⟩
      exact h (by simp [h1])
    simp [replaceDoubleSpace, if_neg hc1]

theorem hasDoubleSpaceL_cons_of_head {a : Char} {x : List Char}
    (h : x.head? ≠ some ' ' ∨ a ≠ ' ') :
    hasDoubleSpaceL (a :: x) = hasDoubleSpaceL x := by
  match x with
  | [] => simp [hasDoubleSpaceL]
  | b :: rest =>
    have hab : ¬ (a = ' ' ∧ b = ' ') := by
      rintro ⟨h1, h2⟩
      rcases h with h | h
      · exact h (by simp [h2])
      · exact h h1
    by_cases ha : a = ' '
    · have hb : b ≠ ' ' := fun hb => hab ⟨ha, hb⟩
      simp [hasDoubleSpaceL, ha, hb]
    · simp [hasDoubleSpaceL, ha]

theorem replaceDoubleSpace_noDS : ∀ l : List Char, noTripleSpace l = true →
    hasDoubleSpaceL (replaceDoubleSpace l) = false
  | [], _ => rfl
  | [c], _ => by
    simp [replaceDoubleSpace, hasDoubleSpaceL]
  | c1 :: c2 :: rest, h => by
    by_cases hc : c1 = ' ' ∧ c2 = ' '
    · have hrest : noTripleSpace rest = true :=
        noTripleSpace_tail (noTripleSpace_tail h)
      have hhead : rest.head? ≠ some ' ' := by
        match rest with
        | [] => simp
        | r :: rs =>
          intro hr
          simp only [List.head?_cons, Option.some.injEq] at hr
          rw [hc.1, hc.2, hr] at h
          simp [noTripleSpace] at h
      rw [replaceDoubleSpace, if_pos hc]
      rw [hasDoubleSpaceL_cons_of_head (Or.inl (by rwa [replaceDoubleSpace_head hhead]))]
      exact replaceDoubleSpace_noDS rest hrest
    · rw [replaceDoubleSpace, if_neg hc]
      have htail : noTripleSpace (c2 :: rest) = true := noTripleSpace_tail h
      have hne : ¬ (c1 = ' ' ∧ c2 = ' ') := hc
      have hhead2 : (replaceDoubleSpace (c2 :: rest)).head? = some c2 ∨ c1 ≠ ' ' := by
        by_cases hc1 : c1 = ' '
        · left
          have hc2 : c2 ≠ ' ' := fun hc2 => hne ⟨hc1, hc2⟩
          rw [replaceDoubleSpace_head (by simp [hc2])]
          rfl
        · right; exact hc1
      rcases hhead2 with h2 | h2
      · by_cases hc2 : c2 = ' '
        · have hc1 : c1 ≠ ' ' := fun hc1 => hne ⟨hc1, hc2⟩
          rw [hasDoubleSpaceL_cons_of_head (Or.inr hc1)]
          exact replaceDoubleSpace_noDS (c2 :: rest) htail
        · rw [hasDoubleSpaceL_cons_of_head (Or.inl (by rw [h2]; simp [hc2]))]
          exact replaceDoubleSpace_noDS (c2 :: rest) htail
      · rw [hasDoubleSpaceL_cons_of_head (Or.inr h2)]
        exact replaceDoubleSpace_noDS (c2 :: rest) htail

theorem normalize_number_noDS {number : String}
    (h : noTripleSpace number.data = true) :
    hasDoubleSpace (Standard.normalize_number number) = false := by
  have := replaceDoubleSpace_noDS (pyStrip number.data) (noTripleSpace_pyStrip h)
  simpa [hasDoubleSpace, Standard.normalize_number] using this

/-! ## C8: number normalization on construction -/

/-- C8 (counterexample): the claim "for every input number string the
constructed object's number contains no two consecutive spaces" fails at the
input `"EN   301"` (three spaces): one `replace('  ', ' ')` pass leaves
`"EN  301"`. -/
theorem C8_counterexample :
    hasDoubleSpace (mkStandard "EN   301" "V1.0.0" "RE" "" "Active"
      "2020-01-01" "").number = true := by decide

/-- C8 (amended): every `Standard` and `TestStandard` has its number trimmed
and double-space-replaced on construction; provided no run of three or more
consecutive spaces occurs in the input, the constructed number contains no
two consecutive space characters. -/
theorem C8_constructed_number_no_double_space
    (number version directive title status publication_date amendment_date
      v c d s : String) (h : noTripleSpace number.data = true) :
    hasDoubleSpace (mkStandard number version directive title status
        publication_date amendment_date).number = false ∧
    hasDoubleSpace (mkTestStandard number v c d s).standard_number = false :=
  ⟨normalize_number_noDS h, normalize_number_noDS h⟩

/-- Witness for C8: concrete instantiation at `"EN 301 489-17"`. -/
theorem C8_constructed_number_no_double_space_witness :
    noTripleSpace "EN 301  489-17".data = true ∧
    hasDoubleSpace (mkStandard "EN 301  489-17" "V3.3.1" "RE" "" "Active"
        "2023-03-15" "2025-01-28").number = false :=
  ⟨by decide,
   (C8_constructed_number_no_double_space "EN 301  489-17" "V3.3.1" "RE" ""
     "Active" "2023-03-15" "2025-01-28" "" "" "" "" (by decide)).1⟩

/-! ## C6: similarity scoring -/

/-- C6 (counterexample): the claim that `calculate_similarity` "returns 0.0
when both inputs are empty" is false: two empty inputs are equal after
normalization, so the equality branch returns 1.0. -/
theorem C6_counterexample :
    calculate_similarity "" "" = 1 ∧ (1 : ℚ) ≠ 0 :=
  ⟨by decide, by norm_num⟩

/-- C6 (amended): `calculate_similarity` always lies in `[0, 1]`; it returns
exactly 1 when the inputs are equal after normalization and lower-casing —
in particular when both inputs are empty; for inputs with disjoint non-empty
character sets it returns 0; for unequal normalized inputs it returns the
ratio of the intersection to the union of the two character sets. -/
theorem C6_similarity_spec (str1 str2 : String) :
    (0 ≤ calculate_similarity str1 str2 ∧ calculate_similarity str1 str2 ≤ 1) ∧
    (pyLower (normalize_standard_number str1) = pyLower (normalize_standard_number str2) →
      calculate_similarity str1 str2 = 1) ∧
    (str1 = "" → str2 = "" → calculate_similarity str1 str2 = 1) ∧
    (charSet (pyLower (normalize_standard_number str1)) ∩
        charSet (pyLower (normalize_standard_number str2)) = ∅ →
      (charSet (pyLower (normalize_standard_number str1))).Nonempty →
      calculate_similarity str1 str2 = 0) ∧
    (pyLower (normalize_standard_number str1) ≠ pyLower (normalize_standard_number str2) →
      calculate_similarity str1 str2 =
        ((charSet (pyLower (normalize_standard_number str1)) ∩
            charSet (pyLower (normalize_standard_number str2))).card : ℚ) /
          ((charSet (pyLower (normalize_standard_number str1)) ∪
            charSet (pyLower (normalize_standard_number str2))).card : ℚ)) := by
  refine ⟨?_, ?_, ?_, ?_, ?_⟩
  · by_cases h : pyLower (normalize_standard_number str1) =
        pyLower (normalize_standard_number str2)
    · simp [calculate_similarity, h]
    · simp only [calculate_similarity, if_neg h]
      by_cases hu : charSet (pyLower (normalize_standard_number str1)) ∪
          charSet (pyLower (normalize_standard_number str2)) = ∅
      · simp [hu]
      · simp only [if_neg hu]
        constructor
        · positivity
        · refine div_le_one_of_le ?_ (by positivity)
          exact_mod_cast Finset.card_le_card Finset.inter_subset_union
  · intro h
    simp [calculate_similarity, h]
  · rintro rfl rfl
    decide
  · intro hdisj hne
    have hneq : pyLower (normalize_standard_number str1) ≠
        pyLower (normalize_standard_number str2) := by
      intro h
      rw [h] at hdisj hne
      rw [Finset.inter_self] at hdisj
      exact Finset.not_nonempty_empty (hdisj ▸ hne)
    simp only [calculate_similarity, if_neg hneq, hdisj]
    by_cases hu : charSet (pyLower (normalize_standard_number str1)) ∪
        charSet (pyLower (normalize_standard_number str2)) = ∅
    · simp [hu]
    · simp [if_neg hu]
  · intro hneq
    simp only [calculate_similarity, if_neg hneq]
    by_cases hu : charSet (pyLower (normalize_standard_number str1)) ∪
        charSet (pyLower (normalize_standard_number str2)) = ∅
    · have h1 : charSet (pyLower (normalize_standard_number str1)) = ∅ :=
        Finset.union_eq_empty.mp hu |>.1
      have h2 : charSet (pyLower (normalize_standard_number str2)) = ∅ :=
        Finset.union_eq_empty.mp hu |>.2
      simp [hu, h1, h2]
    · simp [if_neg hu]

/-- Witness for C6: concrete instantiation of the hypothesis-bearing
conjuncts. -/
theorem C6_similarity_spec_witness :
    calculate_similarity "EN 300 328" "en  300  328" = 1 ∧
    calculate_similarity "abc" "xyz" = 0 :=
  ⟨(C6_similarity_spec "EN 300 328" "en  300  328").2.1 (by decide),
   (C6_similarity_spec "abc" "xyz").2.2.2.1 (by decide) (by decide)⟩

/-! ## C2: deduplication policy -/

theorem dedup_pair_eq (s1 s2 : Standard) (h : s1.number = s2.number) :
    deduplicate_standards [s1, s2] =
      if s2.version ≠ "" ∧ s1.version = "" then [s2]
      else if s2.version = "" ∧ s1.version ≠ "" then [s1]
      else if s2.version ≠ "" ∧ s1.version ≠ "" then
        if compare_versions s2.version s1.version > 0 then [s2] else [s1]
      else [s1] := by
  have hstep1 : dedupStep [] s1 = [(s1.number, s1)] := rfl
  unfold deduplicate_standards
  simp only [List.foldl_cons, List.foldl_nil, hstep1]
  unfold dedupStep
  rw [h]
  simp only [List.lookup_cons, beq_self_eq_true, if_true]
  split_ifs with h1 h2 h3 h4 <;>
    simp [updateAssoc, List.map]

theorem searchVersionTriple_ne_empty {v : String} {t : Nat × Nat × Nat}
    (h : searchVersionTriple v.data = some t) : v ≠ "" := by
  intro hv
  rw [hv] at h
  simp [searchVersionTriple, String.data] at h

/-- C2: deduplication keys standards by number only; between two entries with
the same number the one with a non-empty version is kept over one with an
empty version; when both versions contain a `V#.#.#` triple the one whose
extracted triple is lexicographically greater is kept (the earlier entry on a
tie); when neither does, plain string comparison decides. -/
theorem C2_dedup_prefers_version (s1 s2 : Standard) (h : s1.number = s2.number) :
    (s1.version = "" → s2.version ≠ "" → deduplicate_standards [s1, s2] = [s2]) ∧
    (s1.version ≠ "" → s2.version = "" → deduplicate_standards [s1, s2] = [s1]) ∧
    (∀ a1 b1 c1 a2 b2 c2 : Nat,
      searchVersionTriple s1.version.data = some (a1, b1, c1) →
      searchVersionTriple s2.version.data = some (a2, b2, c2) →
      deduplicate_standards [s1, s2] =
        if a1 < a2 ∨ (a1 = a2 ∧ (b1 < b2 ∨ (b1 = b2 ∧ c1 < c2))) then [s2] else [s1]) ∧
    (searchVersionTriple s1.version.data = none →
      searchVersionTriple s2.version.data = none →
      s1.version ≠ "" → s2.version ≠ "" →
      deduplicate_standards [s1, s2] =
        if strCmp s2.version s1.version = Ordering.gt then [s2] else [s1]) := by
  refine ⟨?_, ?_, ?_, ?_⟩
  · intro h1 h2
    rw [dedup_pair_eq s1 s2 h, if_pos ⟨h2, h1⟩]
  · intro h1 h2
    rw [dedup_pair_eq s1 s2 h, if_neg (by tauto), if_pos ⟨h2, h1⟩]
  · intro a1 b1 c1 a2 b2 c2 h1 h2
    have hv1 : s1.version ≠ "" := searchVersionTriple_ne_empty h1
    have hv2 : s2.version ≠ "" := searchVersionTriple_ne_empty h2
    rw [dedup_pair_eq s1 s2 h, if_neg (by tauto), if_neg (by tauto),
      if_pos ⟨hv2, hv1⟩]
    unfold compare_versions
    rw [h1, h2]
    dsimp only
    split_ifs <;> first | rfl | (exfalso; omega)
  · intro h1 h2 hv1 hv2
    rw [dedup_pair_eq s1 s2 h, if_neg (by tauto), if_neg (by tauto),
      if_pos ⟨hv2, hv1⟩]
    unfold compare_versions
    rw [h1, h2]
    dsimp only
    rcases hc : strCmp s2.version s1.version
    all_goals simp [hc]

/-- Witness for C2: the two `"EN 61000-4-2"` entries of the claim — the
versionless one first, the `"V2008+A1:2013"` one second — deduplicate to the
versioned entry alone. -/
theorem C2_dedup_prefers_version_witness :
    deduplicate_standards
        [mkStandard "EN 61000-4-2" "" "EMC" "" "Active" "" "",
         mkStandard "EN 61000-4-2" "V2008+A1:2013" "EMC" "" "Active" "" ""] =
      [mkStandard "EN 61000-4-2" "V2008+A1:2013" "EMC" "" "Active" "" ""] :=
  (C2_dedup_prefers_version
      (mkStandard "EN 61000-4-2" "" "EMC" "" "Active" "" "")
      (mkStandard "EN 61000-4-2" "V2008+A1:2013" "EMC" "" "Active" "" "")
      (by decide)).1 (by decide) (by decide)

/-! ## C5: extractor caching -/

theorem extract_from_pdf_cache_invariant (env : ISO17025Env)
    (cache : List (String × AccreditationScope)) (pdf_path : String) :
    (extract_from_pdf env cache pdf_path).2 = cache := by
  simp only [extract_from_pdf]
  rcases hl : List.lookup (create_cache_key "iso17025_scope" [get_file_hash env pdf_path])
      cache with _ | v
  all_goals simp only [hl]
  all_goals try rfl
  all_goals split <;> rfl

/-- C5 (code bug evidence): `extract_from_pdf` returns the cache unchanged in
every branch — the source computes the `"iso17025_scope"` content-hash cache
key and reads the cache but never calls `save_to_cache` — so after a first
extraction with an empty cache, a lookup under any content-hash key (in
particular the one of a byte-identical file under another path) still misses,
and the second extraction is not answered from the cache. -/
theorem C5_extract_never_caches (env : ISO17025Env)
    (cache : List (String × AccreditationScope)) (pdf_path other_path : String) :
    (extract_from_pdf env cache pdf_path).2 = cache ∧
    ((extract_from_pdf env [] pdf_path).2).lookup
        (create_cache_key "iso17025_scope" [get_file_hash env other_path]) = none :=
  ⟨extract_from_pdf_cache_invariant env cache pdf_path, by
    rw [extract_from_pdf_cache_invariant env [] pdf_path]
    rfl⟩

/-! ## C4: comparator number normalization -/

/-- C4 (code bug evidence): the comparator's prefix rules are written with
escaped backslashes (`r'^ETSI\\s+EN\\s+'` and friends), so they match a
literal backslash followed by letters `s` and never fire on real
standard numbers.  `"ETSI EN 301 489-17"` therefore stays unchanged instead
of collapsing to `"EN 301 489-17"`, and the match score of the claim's
example pair is the character-set ratio 11/14, not 1.0. -/
theorem C4_broken_prefix_normalization :
    comparator_normalize_standard_number "ETSI EN 301 489-17" = "ETSI EN 301 489-17" ∧
    comparator_normalize_standard_number "EN 301 489-17" = "EN 301 489-17" ∧
    calculate_match_score
        (mkStandard "ETSI EN 301 489-17" "" "RE" "" "Active" "" "")
        (mkTestStandard "EN 301 489-17" "" "European Radio" "" "ISO17025_Certificate")
      = 11 / 14 ∧
    ((11 : ℚ) / 14) ≠ 1 := by
  refine ⟨by decide, by decide, ?_, by norm_num⟩
  have key : calculate_similarity "ETSI EN 301 489-17" "EN 301 489-17" = 11 / 14 := by
    simp only [calculate_similarity]
    rw [if_neg (by decide), if_neg (by decide)]
    rw [show (charSet (pyLower (normalize_standard_number "ETSI EN 301 489-17")) ∩
          charSet (pyLower (normalize_standard_number "EN 301 489-17"))).card = 11 from by decide]
    rw [show (charSet (pyLower (normalize_standard_number "ETSI EN 301 489-17")) ∪
          charSet (pyLower (normalize_standard_number "EN 301 489-17"))).card = 14 from by decide]
    norm_num
  have hn1 : comparator_normalize_standard_number
      (mkStandard "ETSI EN 301 489-17" "" "RE" "" "Active" "" "").number =
      "ETSI EN 301 489-17" := by decide
  have hn2 : comparator_normalize_standard_number
      (mkTestStandard "EN 301 489-17" "" "European Radio"
        "" "ISO17025_Certificate").standard_number = "EN 301 489-17" := by decide
  simp only [calculate_match_score, hn1, hn2]
  rw [if_neg (by decide : ¬ ("ETSI EN 301 489-17" : String) = "EN 301 489-17")]
  simp only [mkStandard, mkTestStandard, key]
  norm_num [min_def]

/-! ## C9: `validate_standard_format` -/

theorem digit_not_pyspace {c : Char} (h : c.isDigit = true) : isPySpace c = false := by
  cases hx : isPySpace c
  · rfl
  · exfalso
    simp only [isPySpace, Bool.or_eq_true, decide_eq_true_eq] at hx
    rcases hx with ((((h1 | h1) | h1) | h1) | h1) | h1 <;> subst h1 <;>
      exact absurd h (by decide)

theorem dropWhile_append_of_all {p : Char → Bool} {a b : List Char}
    (h : ∀ c ∈ a, p c = true) : (a ++ b).dropWhile p = b.dropWhile p := by
  induction a with
  | nil => rfl
  | cons x xs ih =>
    simp only [List.cons_append, List.dropWhile_cons, h x (by simp), if_true]
    exact ih fun c hc => h c (by simp [hc])

/-- C9: `validate_standard_format` accepts only the three two-digit-group
shapes; every number of the form `EN <single digit group>[-parts]` — after
normalization — is rejected, including the bundled harmonized numbers
`"EN 55032"` and `"EN 61000-4-2"`; the two-group forms are accepted. -/
theorem C9_validate_rejects_single_group :
    (∀ (s : String) (g chain : List Char), g ≠ [] → (∀ c ∈ g, c.isDigit = true) →
      (chain = [] ∨ chain.head? = some '-') →
      (normalize_standard_number s).data = 'E' :: 'N' :: ' ' :: (g ++ chain) →
      validate_standard_format s = false) ∧
    validate_standard_format "EN 55032" = false ∧
    validate_standard_format "EN 61000-4-2" = false ∧
    validate_standard_format "EN 301 489-17" = true ∧
    validate_standard_format "ETSI EN 301 489-17" = true := by
  refine ⟨?_, by decide, by decide, by decide, by decide⟩
  intro s g chain hg hd hch hnorm
  rcases g with _ | ⟨d, g'⟩
  · exact absurd rfl hg
  have hd1 : d.isDigit = true := hd d (by simp)
  have hg' : ∀ c ∈ g', c.isDigit = true := fun c hc => hd c (by simp [hc])
  simp only [validate_standard_format]
  rw [hnorm]
  have hbare : matchBareNumber ('E' :: 'N' :: ' ' :: (d :: g' ++ chain)) = false := by
    simp [matchBareNumber, eatDigits]
  have hetsi : matchEtsiEnNumber ('E' :: 'N' :: ' ' :: (d :: g' ++ chain)) = false := rfl
  have hen : matchEnNumber ('E' :: 'N' :: ' ' :: (d :: g' ++ chain)) = false := by
    simp only [matchEnNumber, eatSpaces, show isPySpace ' ' = true from rfl, if_true]
    rw [show (d :: g' ++ chain).dropWhile isPySpace = d :: (g' ++ chain) by
      simp [List.dropWhile_cons, digit_not_pyspace hd1]]
    simp only [eatDigits, hd1, if_true]
    rw [dropWhile_append_of_all hg']
    rcases hch with rfl | hch
    · rfl
    · rcases chain with _ | ⟨c0, t⟩
      · rfl
      · simp only [List.head?_cons, Option.some.injEq] at hch
        subst hch
        rfl
  rw [hbare, hen, hetsi]
  rfl

/-- Witness for C9: the single-digit-group rejection applied to the bundled
number `"EN 55032"`. -/
theorem C9_validate_rejects_single_group_witness :
    validate_standard_format "EN 55032" = false :=
  C9_validate_rejects_single_group.1 "EN 55032" ['5', '5', '0', '3', '2'] []
    (by decide) (by decide) (Or.inl rfl) (by decide)

/-! ## C1: fetch fallback to the sample dataset -/

/-- C1: for a registered directive, when the cache has no usable entry and
both live sources yield no standards, `fetch_standards` returns success with
the directive's sorted sample standards whenever the sample set is non-empty,
and only with an empty sample set does it return the
`"No standards found for <directive>"` failure. -/
theorem C1_fetch_falls_back_to_samples (env : OJEnv) (directive : String)
    (hdir : env.directive_urls.contains directive = true)
    (hcache : ∀ x xs, env.cache (create_cache_key "oj_standards" [directive]) ≠ some (x :: xs))
    (heur : env.eur_lex_fetch directive = [])
    (hec : env.ec_fetch directive = []) :
    (get_sample_standards_for_directive directive ≠ [] →
      (fetch_standards env directive).1 =
        ⟨true, some (sort_standards_by_number (get_sample_standards_for_directive directive)),
          none, []⟩) ∧
    (get_sample_standards_for_directive directive = [] →
      (fetch_standards env directive).1 =
        ⟨false, none, some ("No standards found for " ++ directive), []⟩) := by
  have hkey : env.cache (create_cache_key "oj_standards" [directive]) = none ∨
      env.cache (create_cache_key "oj_standards" [directive]) = some [] := by
    rcases hc : env.cache (create_cache_key "oj_standards" [directive]) with _ | l
    · exact Or.inl rfl
    · rcases l with _ | ⟨x, xs⟩
      · exact Or.inr rfl
      · exact absurd hc (hcache x xs)
  have hmem : directive ∈ env.directive_urls := by simpa using hdir
  constructor
  · intro hs
    have hsE : (get_sample_standards_for_directive directive).isEmpty = false := by
      rcases hx : get_sample_standards_for_directive directive with _ | _
      · exact absurd hx hs
      · rfl
    rcases hkey with hc | hc <;>
      simp [fetch_standards, hdir, hmem, hc, heur, hec, hsE]
  · intro hs
    rcases hkey with hc | hc <;>
      simp [fetch_standards, hdir, hmem, hc, heur, hec, hs]

/-- Witness for C1: with the spec-modelled registry, an empty cache and live
sources that return nothing, fetching `"RE"` succeeds with the sorted RE
sample standards. -/
theorem C1_fetch_falls_back_to_samples_witness :
    (fetch_standards ⟨specDirectiveCodes, fun _ => [], fun _ => [], fun _ => none⟩ "RE").1 =
      ⟨true, some (sort_standards_by_number (get_sample_standards_for_directive "RE")),
        none, []⟩ :=
  (C1_fetch_falls_back_to_samples
      ⟨specDirectiveCodes, fun _ => [], fun _ => [], fun _ => none⟩ "RE"
      (by decide) (fun x xs h => by exact Option.noConfusion h) rfl rfl).1
    (by decide)

/-! ## C3: composite sort key -/

/-- C3: sorting uses the composite key: when the keys of two standards are
comparable and the first key is strictly smaller, the sort keeps that order;
the key of a no-suffix `EN <N1> <N2>` number is `("EN", N1, N2, (0,))`, a
dash-suffixed part chain becomes the tuple of its numbers with a non-numeric
token mapped to 999999; and the claim's four-standard example sorts into the
stated numeric order. -/
theorem C3_sort_standards_composite_key :
    (∀ s1 s2 : Standard, allPairsComparable [s1, s2] = true →
      pyKeyCompare (extract_sort_key s1) (extract_sort_key s2) = some Ordering.lt →
      sort_standards_by_number [s1, s2] = [s1, s2]) ∧
    extract_sort_key (mkStandard "EN 300 328" "" "RE" "" "Active" "" "") =
      [PyV.s "EN", PyV.i 300, PyV.i 328, PyV.t [0]] ∧
    extract_sort_key (mkStandard "EN 301 489-17" "" "RE" "" "Active" "" "") =
      [PyV.s "EN", PyV.i 301, PyV.i 489, PyV.t [17]] ∧
    extract_sort_key (mkStandard "EN 301 489-A" "" "RE" "" "Active" "" "") =
      [PyV.s "EN", PyV.i 301, PyV.i 489, PyV.t [999999]] ∧
    (sort_standards_by_number
      [mkStandard "EN 301 489-17" "" "RE" "" "Active" "" "",
       mkStandard "EN 300 328" "" "RE" "" "Active" "" "",
       mkStandard "EN 303 413" "" "RE" "" "Active" "" "",
       mkStandard "EN 302 065-1" "" "RE" "" "Active" "" ""]).map Standard.number =
      ["EN 300 328", "EN 301 489-17", "EN 302 065-1", "EN 303 413"] := by
  refine ⟨?_, by decide, by decide, by decide, by decide⟩
  intro s1 s2 hcomp hlt
  unfold sort_standards_by_number
  rw [if_pos hcomp]
  simp only [pySortedBy, List.foldl_cons, List.foldl_nil, insertSortedBy]
  rw [show pyKeyLeB (extract_sort_key s1) (extract_sort_key s2) = true from by
    simp [pyKeyLeB, hlt]]
  rfl

/-- Witness for C3: the general ordering conjunct applied to
`"EN 300 328"` before `"EN 301 489-17"`. -/
theorem C3_sort_standards_composite_key_witness :
    sort_standards_by_number
        [mkStandard "EN 300 328" "" "RE" "" "Active" "" "",
         mkStandard "EN 301 489-17" "" "RE" "" "Active" "" ""] =
      [mkStandard "EN 300 328" "" "RE" "" "Active" "" "",
       mkStandard "EN 301 489-17" "" "RE" "" "Active" "" ""] :=
  C3_sort_standards_composite_key.1
    (mkStandard "EN 300 328" "" "RE" "" "Active" "" "")
    (mkStandard "EN 301 489-17" "" "RE" "" "Active" "" "")
    (by decide) (by decide)

/-! ## C7: idempotence of the shared normalizer -/

theorem mem_collapseWSAux {c : Char} :
    ∀ (l : List Char) (b : Bool), c ∈ collapseWSAux b l → c = ' ' ∨ c ∈ l := by
  intro l
  induction l with
  | nil => intro b h; simp [collapseWSAux] at h
  | cons x xs ih =>
    intro b h
    by_cases hx : isPySpace x = true
    · rw [collapseWSAux, if_pos hx] at h
      cases b with
      | true =>
        rcases ih true h with h1 | h1
        · exact Or.inl h1
        · exact Or.inr (List.mem_cons_of_mem x h1)
      | false =>
        rcases List.mem_cons.mp h with h1 | h1
        · exact Or.inl h1
        · rcases ih true h1 with h2 | h2
          · exact Or.inl h2
          · exact Or.inr (List.mem_cons_of_mem x h2)
    · rw [collapseWSAux, if_neg hx] at h
      rcases List.mem_cons.mp h with h1 | h1
      · exact Or.inr (h1 ▸ List.mem_cons_self x xs)
      · rcases ih false h1 with h2 | h2
        · exact Or.inl h2
        · exact Or.inr (List.mem_cons_of_mem x h2)

theorem head_collapseWSAux_true {c : Char} :
    ∀ l : List Char, (collapseWSAux true l).head? = some c → isPySpace c = false := by
  intro l
  induction l with
  | nil => intro h; simp [collapseWSAux] at h
  | cons x xs ih =>
    intro h
    by_cases hx : isPySpace x = true
    · rw [collapseWSAux, if_pos hx] at h
      exact ih h
    · rw [collapseWSAux, if_neg hx] at h
      simp only [List.head?_cons, Option.some.injEq] at h
      subst h
      exact Bool.eq_false_iff.mpr hx

theorem canonWS_tail {x : Char} {l : List Char} (h : canonWS (x :: l) = true) :
    canonWS l = true := by
  match l with
  | [] => rfl
  | m :: ms =>
    rw [canonWS, Bool.and_eq_true] at h
    exact h.2

theorem canonWS_cons_nonspace {x : Char} {l : List Char} (hx : isPySpace x = false)
    (h : canonWS l = true) : canonWS (x :: l) = true := by
  match l with
  | [] => simp [canonWS, hx]
  | m :: ms =>
    rw [canonWS, Bool.and_eq_true]
    exact ⟨by simp [hx], h⟩

theorem canonWS_collapseWSAux : ∀ (l : List Char) (b : Bool),
    canonWS (collapseWSAux b l) = true := by
  intro l
  induction l with
  | nil => intro b; rfl
  | cons x xs ih =>
    intro b
    by_cases hx : isPySpace x = true
    · rw [collapseWSAux, if_pos hx]
      cases b with
      | true => exact ih true
      | false =>
        rcases hM : collapseWSAux true xs with _ | ⟨m, rest⟩
        · decide
        · have hm : isPySpace m = false :=
            head_collapseWSAux_true xs (by rw [hM]; rfl)
          have hrest : canonWS (m :: rest) = true := by
            have hr := ih true
            rwa [hM] at hr
          have hgoal : ((if isPySpace ' ' then decide (' ' = ' ') && !isPySpace m
              else true) && canonWS (m :: rest)) = true := by
            rw [if_pos (by decide)]
            simp [hm, hrest]
          show canonWS (' ' :: m :: rest) = true
          exact hgoal
    · rw [collapseWSAux, if_neg hx]
      exact canonWS_cons_nonspace (Bool.eq_false_iff.mpr hx) (ih false)

theorem collapseWSAux_false_fix : ∀ l : List Char, canonWS l = true →
    collapseWSAux false l = l
  | [], _ => rfl
  | [c], h => by
    by_cases hc : isPySpace c = true
    · have h2 : (!isPySpace c || decide (c = ' ')) = true := h
      simp only [hc, Bool.not_true, Bool.false_or, decide_eq_true_eq] at h2
      subst h2
      rfl
    · rw [collapseWSAux, if_neg hc]
      rfl
  | c :: d :: rest, h => by
    have htail : canonWS (d :: rest) = true := canonWS_tail h
    by_cases hc : isPySpace c = true
    · have h2 : ((if isPySpace c then decide (c = ' ') && !isPySpace d else true) &&
          canonWS (d :: rest)) = true := h
      rw [if_pos hc] at h2
      simp only [Bool.and_eq_true, decide_eq_true_eq, Bool.not_eq_eq_eq_not,
        Bool.not_true] at h2
      obtain ⟨⟨hc1, hd⟩, -⟩ := h2
      subst hc1
      show (' ' :: collapseWSAux true (d :: rest)) = ' ' :: d :: rest
      congr 1
      rw [collapseWSAux, if_neg (by simp [hd])]
      rw [collapseWSAux_false_fix rest (canonWS_tail htail)]
    · rw [collapseWSAux, if_neg hc]
      rw [collapseWSAux_false_fix (d :: rest) htail]

theorem dropWhile_head_not {p : Char → Bool} :
    ∀ (l : List Char) {c t}, List.dropWhile p l = c :: t → p c = false := by
  intro l
  induction l with
  | nil => intro c t h; exact absurd h (by simp)
  | cons x xs ih =>
    intro c t h
    rw [List.dropWhile_cons] at h
    by_cases hx : p x = true
    · rw [if_pos hx] at h
      exact ih h
    · rw [if_neg hx] at h
      obtain ⟨rfl, -⟩ := List.cons.inj h
      exact Bool.eq_false_iff.mpr hx

theorem pyStrip_head_not {l : List Char} {c : Char} {t : List Char}
    (h : pyStrip l = c :: t) : isPySpace c = false := by
  obtain ⟨u, hu⟩ := List.rdropWhile_prefix isPySpace (l.dropWhile isPySpace)
  rw [pyStrip] at h
  rw [h] at hu
  exact dropWhile_head_not l (t := t ++ u) (by rw [← hu]; simp)

theorem getLast?_cons_of_ne_nil {x : Char} {M : List Char} (h : M ≠ []) :
    (x :: M).getLast? = M.getLast? := by
  rcases M with _ | ⟨m, ms⟩
  · exact absurd rfl h
  · exact List.getLast?_cons_cons

theorem getLast?_ne_none_of_eq_some {M : List Char} {c : Char}
    (h : M.getLast? = some c) : M ≠ [] := by
  intro hM
  rw [hM] at h
  exact Option.noConfusion h

theorem collapse_getLast : ∀ (l : List Char) (b : Bool) {c : Char},
    l.getLast? = some c → isPySpace c = false →
    (collapseWSAux b l).getLast? = some c
  | [x], b, c, hl, hc => by
    simp only [List.getLast?_singleton, Option.some.injEq] at hl
    subst hl
    rw [collapseWSAux, if_neg (by simp [hc])]
    rfl
  | x :: y :: rest, b, c, hl, hc => by
    have hl2 : (y :: rest).getLast? = some c := by
      rwa [List.getLast?_cons_cons] at hl
    have hrec := collapse_getLast (y :: rest) true hl2 hc
    have hrecF := collapse_getLast (y :: rest) false hl2 hc
    by_cases hx : isPySpace x = true
    · rw [collapseWSAux, if_pos hx]
      cases b with
      | true => exact hrec
      | false =>
        show (' ' :: collapseWSAux true (y :: rest)).getLast? = some c
        rw [getLast?_cons_of_ne_nil (getLast?_ne_none_of_eq_some hrec)]
        exact hrec
    · rw [collapseWSAux, if_neg hx]
      rw [getLast?_cons_of_ne_nil (getLast?_ne_none_of_eq_some hrecF)]
      exact hrecF

theorem mem_pyStrip {c : Char} {l : List Char} (h : c ∈ pyStrip l) : c ∈ l :=
  (List.dropWhile_sublist isPySpace).subset
    ((List.rdropWhile_prefix isPySpace (l.dropWhile isPySpace)).sublist.subset h)

theorem pyStrip_eq_self {r : List Char}
    (hhead : ∀ c t, r = c :: t → isPySpace c = false)
    (hlast : ∀ c, r.getLast? = some c → isPySpace c = false) :
    pyStrip r = r := by
  rcases r with _ | ⟨c, t⟩
  · rfl
  · rw [pyStrip, List.dropWhile_cons, if_neg (by simp [hhead c t rfl])]
    rw [List.rdropWhile_eq_self_iff]
    intro hl
    have h1 := List.getLast?_eq_getLast (c :: t) hl
    have h2 := hlast _ h1
    simp [h2]

theorem pyStrip_fix_of_collapse {l : List Char} :
    pyStrip (collapseWSAux false (pyStrip l)) = collapseWSAux false (pyStrip l) := by
  apply pyStrip_eq_self
  · intro c t hct
    rcases hpl : pyStrip l with _ | ⟨p, ps⟩
    · rw [hpl] at hct
      exact absurd hct (by simp [collapseWSAux])
    · rw [hpl] at hct
      have hp : isPySpace p = false := pyStrip_head_not hpl
      rw [collapseWSAux, if_neg (by simp [hp])] at hct
      obtain ⟨rfl, -⟩ := List.cons.inj hct
      exact hp
  · intro c hc
    have hnil : pyStrip l ≠ [] := by
      intro h0
      rw [h0] at hc
      simp [collapseWSAux] at hc
    have hlast? : (pyStrip l).getLast? = some ((pyStrip l).getLast hnil) :=
      List.getLast?_eq_getLast _ hnil
    have hg : isPySpace ((pyStrip l).getLast hnil) = false := by
      have h0 := List.rdropWhile_last_not (p := isPySpace)
        (l := l.dropWhile isPySpace) hnil
      exact Bool.eq_false_iff.mpr h0
    have hcl := collapse_getLast (pyStrip l) false hlast? hg
    rw [hc] at hcl
    rw [Option.some.inj hcl]
    exact hg

theorem normalize_idem_on_allowed (s : String)
    (hall : ∀ c ∈ s.data, isAllowedChar c = true) :
    normalize_standard_number (normalize_standard_number s) =
      normalize_standard_number s := by
  by_cases hs : s = ""
  · subst hs; rfl
  · have hallr : ∀ c ∈ collapseWSAux false (pyStrip s.data), isAllowedChar c = true := by
      intro c hc
      rcases mem_collapseWSAux (pyStrip s.data) false hc with h1 | h1
      · subst h1; decide
      · exact hall c (mem_pyStrip h1)
    have hfilter : (collapseWSAux false (pyStrip s.data)).filter isAllowedChar =
        collapseWSAux false (pyStrip s.data) := List.filter_eq_self.mpr hallr
    have hns : normalize_standard_number s =
        String.mk (collapseWSAux false (pyStrip s.data)) := by
      rw [normalize_standard_number, if_neg hs]
      rw [show collapseWS (pyStrip s.data) = collapseWSAux false (pyStrip s.data) from rfl]
      rw [hfilter]
    rw [hns]
    by_cases hrnil : collapseWSAux false (pyStrip s.data) = []
    · rw [hrnil]
      decide
    · have hne : String.mk (collapseWSAux false (pyStrip s.data)) ≠ "" := by
        intro h
        apply hrnil
        have h2 : (String.mk (collapseWSAux false (pyStrip s.data))).data =
            ("" : String).data := by rw [h]
        simpa using h2
      rw [normalize_standard_number, if_neg hne]
      rw [show (String.mk (collapseWSAux false (pyStrip s.data))).data =
        collapseWSAux false (pyStrip s.data) from rfl]
      rw [pyStrip_fix_of_collapse]
      rw [show collapseWS (collapseWSAux false (pyStrip s.data)) =
        collapseWSAux false (collapseWSAux false (pyStrip s.data)) from rfl]
      rw [collapseWSAux_false_fix (collapseWSAux false (pyStrip s.data))
        (canonWS_collapseWSAux (pyStrip s.data) false)]
      rw [hfilter]

/-- C7 (counterexample): normalization is not idempotent: the character
filter runs after whitespace collapsing, so deleting a stripped character
between two spaces leaves a double space that only a second pass collapses —
`"EN ! 301"` normalizes to `"EN  301"` and then to `"EN 301"`. -/
theorem C7_counterexample :
    normalize_standard_number (normalize_standard_number "EN ! 301") ≠
      normalize_standard_number "EN ! 301" := by decide

/-- C7 (amended): for inputs containing only characters the normalizer keeps
(word characters, whitespace and `-.:/()[]`), normalizing twice equals
normalizing once; and normalizing `"EN  301   489-17 "` yields
`"EN 301 489-17"`. -/
theorem C7_normalize_idempotent_on_kept_chars :
    (∀ s : String, (∀ c ∈ s.data, isAllowedChar c = true) →
      normalize_standard_number (normalize_standard_number s) =
        normalize_standard_number s) ∧
    normalize_standard_number "EN  301   489-17 " = "EN 301 489-17" :=
  ⟨normalize_idem_on_allowed, by decide⟩

/-- Witness for C7: idempotence applied to the all-kept input
`"EN  301   489-17 "`. -/
theorem C7_normalize_idempotent_on_kept_chars_witness :
    normalize_standard_number (normalize_standard_number "EN  301   489-17 ") =
      normalize_standard_number "EN  301   489-17 " :=
  C7_normalize_idempotent_on_kept_chars.1 "EN  301   489-17 " (by decide)

/-! ## C10: the comparison partitions the OJ side -/

theorem removeFirst_cons_self [DecidableEq α] (a : α) (l : List α) :
    removeFirst a (a :: l) = l := by
  rw [removeFirst, if_pos rfl]

theorem removeFirst_append_of_not_mem [DecidableEq α] {a : α} {l₁ : List α}
    (h : a ∉ l₁) (l₂ : List α) :
    removeFirst a (l₁ ++ l₂) = l₁ ++ removeFirst a l₂ := by
  induction l₁ with
  | nil => rfl
  | cons x xs ih =>
    have hxa : x ≠ a := fun hx => h (by simp [hx])
    simp only [List.cons_append, removeFirst, if_neg hxa]
    exact congrArg (x :: ·) (ih (fun hm => h (List.mem_cons_of_mem x hm)))

theorem compare_loop_inv (iso_standards : List TestStandard)
    (similarity_threshold : ℚ) :
    ∀ (todo done : List Standard) (isoAcc : List TestStandard),
      (done ++ todo).Nodup →
      (todo.foldl (compareStep iso_standards similarity_threshold)
          (done.filterMap
            (fun s => (best_match_for s similarity_threshold iso_standards).map
              (fun t => (s, t))),
           done.filter
            (fun s => (best_match_for s similarity_threshold iso_standards).isNone) ++ todo,
           isoAcc)).1 =
        (done ++ todo).filterMap
          (fun s => (best_match_for s similarity_threshold iso_standards).map
            (fun t => (s, t))) ∧
      (todo.foldl (compareStep iso_standards similarity_threshold)
          (done.filterMap
            (fun s => (best_match_for s similarity_threshold iso_standards).map
              (fun t => (s, t))),
           done.filter
            (fun s => (best_match_for s similarity_threshold iso_standards).isNone) ++ todo,
           isoAcc)).2.1 =
        (done ++ todo).filter
          (fun s => (best_match_for s similarity_threshold iso_standards).isNone) := by
  intro todo
  induction todo with
  | nil =>
    intro done isoAcc _
    simp
  | cons s rest ih =>
    intro done isoAcc hnd
    have hsdone : s ∉ done := by
      rcases List.nodup_append.mp hnd with ⟨-, -, hdisj⟩
      intro hm
      exact hdisj hm (List.mem_cons_self s rest)
    have hsfilter : s ∉ done.filter
        (fun x => (best_match_for x similarity_threshold iso_standards).isNone) :=
      fun hm => hsdone (List.mem_of_mem_filter hm)
    have happ : done ++ s :: rest = (done ++ [s]) ++ rest := by simp
    have hnd' : ((done ++ [s]) ++ rest).Nodup := by rwa [happ] at hnd
    rw [List.foldl_cons]
    rcases hf : best_match_for s similarity_threshold iso_standards with _ | t
    · have hstep : compareStep iso_standards similarity_threshold
          (done.filterMap
            (fun x => (best_match_for x similarity_threshold iso_standards).map
              (fun u => (x, u))),
           done.filter
            (fun x => (best_match_for x similarity_threshold iso_standards).isNone) ++
              s :: rest,
           isoAcc) s =
          ((done ++ [s]).filterMap
            (fun x => (best_match_for x similarity_threshold iso_standards).map
              (fun u => (x, u))),
           (done ++ [s]).filter
            (fun x => (best_match_for x similarity_threshold iso_standards).isNone) ++
              rest,
           isoAcc) := by
        rw [compareStep, hf]
        rw [List.filterMap_append, List.filter_append]
        simp [hf]
      rw [hstep, happ]
      exact ih (done ++ [s]) isoAcc hnd'
    · have hstep : compareStep iso_standards similarity_threshold
          (done.filterMap
            (fun x => (best_match_for x similarity_threshold iso_standards).map
              (fun u => (x, u))),
           done.filter
            (fun x => (best_match_for x similarity_threshold iso_standards).isNone) ++
              s :: rest,
           isoAcc) s =
          ((done ++ [s]).filterMap
            (fun x => (best_match_for x similarity_threshold iso_standards).map
              (fun u => (x, u))),
           (done ++ [s]).filter
            (fun x => (best_match_for x similarity_threshold iso_standards).isNone) ++
              rest,
           removeFirst t isoAcc) := by
        rw [compareStep, hf]
        rw [List.filterMap_append, List.filter_append]
        rw [removeFirst_append_of_not_mem hsfilter, removeFirst_cons_self]
        simp [hf]
      rw [hstep, happ]
      exact ih (done ++ [s]) (removeFirst t isoAcc) hnd'

theorem length_filterMap_add_filter {α β : Type} (g : α → Option β) :
    ∀ l : List α,
      (l.filterMap (fun a => (g a).map (fun b => (a, b)))).length
        + (l.filter (fun a => (g a).isNone)).length = l.length := by
  intro l
  induction l with
  | nil => rfl
  | cons x xs ih =>
    rcases hx : g x with _ | b
    · simp only [List.filterMap_cons, List.filter_cons, hx, Option.map_none',
        Option.isNone_none, if_true, List.length_cons]
      omega
    · simp only [List.filterMap_cons, List.filter_cons, hx, Option.map_some',
        Option.isNone_some, List.length_cons]
      simp only [Bool.false_eq_true, if_false]
      omega

theorem countP_filterMap_fst_zero {α β : Type} [DecidableEq α] (g : α → Option β)
    (s : α) :
    ∀ l : List α, s ∉ l →
      (l.filterMap (fun a => (g a).map (fun b => (a, b)))).countP
        (fun pr => pr.1 == s) = 0 := by
  intro l
  induction l with
  | nil => intro _; rfl
  | cons x xs ih =>
    intro hs
    have hxs : x ≠ s := fun hx => hs (by simp [hx])
    have hs' : s ∉ xs := fun hm => hs (List.mem_cons_of_mem x hm)
    rcases hx : g x with _ | b
    · simp only [List.filterMap_cons, hx, Option.map_none']
      exact ih hs'
    · simp only [List.filterMap_cons, hx, Option.map_some']
      rw [List.countP_cons_of_neg]
      · exact ih hs'
      · simp [hxs]

theorem count_filterMap_partition {α β : Type} [DecidableEq α] (g : α → Option β)
    (s : α) :
    ∀ l : List α, l.Nodup → s ∈ l →
      (l.filterMap (fun a => (g a).map (fun b => (a, b)))).countP
          (fun pr => pr.1 == s)
        + (l.filter (fun a => (g a).isNone)).count s = 1 := by
  intro l
  induction l with
  | nil => intro _ hs; exact absurd hs (List.not_mem_nil s)
  | cons x xs ih =>
    intro hnd hs
    have hxnd : x ∉ xs := (List.nodup_cons.mp hnd).1
    have hnd' : xs.Nodup := (List.nodup_cons.mp hnd).2
    rcases List.mem_cons.mp hs with hsx | hsxs
    · subst hsx
      have hzero1 := countP_filterMap_fst_zero g s xs hxnd
      have hzero2 : (xs.filter (fun a => (g a).isNone)).count s = 0 :=
        List.count_eq_zero.mpr (fun hm => hxnd (List.mem_of_mem_filter hm))
      rcases hx : g s with _ | b
      · simp only [List.filterMap_cons, List.filter_cons, hx, Option.map_none',
          Option.isNone_none, if_true]
        rw [hzero1, List.count_cons_self, hzero2]
      · simp only [List.filterMap_cons, List.filter_cons, hx, Option.map_some',
          Option.isNone_some]
        simp only [Bool.false_eq_true, if_false]
        rw [List.countP_cons_of_pos, hzero1, hzero2]
        simp
    · have hxs : x ≠ s := fun hx => hxnd (hx ▸ hsxs)
      have hrec := ih hnd' hsxs
      rcases hx : g x with _ | b
      · simp only [List.filterMap_cons, List.filter_cons, hx, Option.map_none',
          Option.isNone_none, if_true]
        rw [List.count_cons_of_ne (Ne.symm hxs)]
        exact hrec
      · simp only [List.filterMap_cons, List.filter_cons, hx, Option.map_some',
          Option.isNone_some]
        simp only [Bool.false_eq_true, if_false]
        rw [List.countP_cons_of_neg]
        · exact hrec
        · simp [hxs]

/-- C10: for a duplicate-free OJ input list, `compare_standards` partitions the
OJ side exactly: the matched pairs and the OJ-only residue together account for
every input standard, `len(matched) + len(oj_only) = len(oj)`, and each input
OJ standard appears as the first component of exactly one matched pair or
exactly once in `oj_only_standards` — never both, never neither. -/
theorem C10_compare_partitions_oj (oj_standards : List Standard)
    (iso_standards : List TestStandard) (similarity_threshold : ℚ)
    (hnd : oj_standards.Nodup) :
    (compare_standards oj_standards iso_standards
        similarity_threshold).matched_standards.length
      + (compare_standards oj_standards iso_standards
          similarity_threshold).oj_only_standards.length
      = oj_standards.length ∧
    ∀ s ∈ oj_standards,
      (compare_standards oj_standards iso_standards
          similarity_threshold).matched_standards.countP (fun pr => pr.1 == s)
        + (compare_standards oj_standards iso_standards
            similarity_threshold).oj_only_standards.count s = 1 := by
  have hinv := compare_loop_inv iso_standards similarity_threshold oj_standards
    [] iso_standards (by simpa using hnd)
  simp only [List.filterMap_nil, List.filter_nil, List.nil_append] at hinv
  have hm : (compare_standards oj_standards iso_standards
      similarity_threshold).matched_standards =
      oj_standards.filterMap
        (fun s => (best_match_for s similarity_threshold iso_standards).map
          (fun t => (s, t))) := hinv.1
  have ho : (compare_standards oj_standards iso_standards
      similarity_threshold).oj_only_standards =
      oj_standards.filter
        (fun s => (best_match_for s similarity_threshold iso_standards).isNone) :=
    hinv.2
  constructor
  · rw [hm, ho]
    exact length_filterMap_add_filter
      (fun s => best_match_for s similarity_threshold iso_standards) oj_standards
  · intro s hs
    rw [hm, ho]
    exact count_filterMap_partition
      (fun s => best_match_for s similarity_threshold iso_standards) s
      oj_standards hnd hs

theorem C10_compare_partitions_oj_witness :
    ([mkStandard "EN 300 328" "V2.2.2" "RE" "" "" "" ""].Nodup) ∧
    ((compare_standards [mkStandard "EN 300 328" "V2.2.2" "RE" "" "" "" ""] []
        (7/10)).matched_standards.length
      + (compare_standards [mkStandard "EN 300 328" "V2.2.2" "RE" "" "" "" ""] []
          (7/10)).oj_only_standards.length
      = 1 ∧
    ∀ s ∈ [mkStandard "EN 300 328" "V2.2.2" "RE" "" "" "" ""],
      (compare_standards [mkStandard "EN 300 328" "V2.2.2" "RE" "" "" "" ""] []
          (7/10)).matched_standards.countP (fun pr => pr.1 == s)
        + (compare_standards [mkStandard "EN 300 328" "V2.2.2" "RE" "" "" "" ""] []
            (7/10)).oj_only_standards.count s = 1) :=
  ⟨by simp,
   C10_compare_partitions_oj [mkStandard "EN 300 328" "V2.2.2" "RE" "" "" "" ""]
     [] (7/10) (by simp)⟩
